import Mathlib

/-!
Verification of the character-level GPT implementation in `notebook.ipynb`
(classes `SingleHeadAttention`, `MultiHeadedSelfAttention`,
`VanillaNeuralNetwork`, `TransformerBlock`, `GPT`, and the free function
`generate`).

The development has three layers, each translated from the source:

* a value-level embedding of the autoregressive sampling loop `generate`
  (contexts are lists of batch rows of token indices; the model, the
  multinomial draw and the `int_to_char` dictionary are parameters);
* a shape-and-index-checked embedding of construction (`__init__`) and of
  `GPT.forward`, mirroring exactly the checks PyTorch performs at runtime
  (embedding-index range checks, `nn.Linear` trailing-dimension checks,
  `torch.cat` non-emptiness);
* a real-valued embedding of the forward computation itself for valid
  configurations (`model_dim = num_heads * head_size`), with dropout
  modelled by an explicit training flag and Boolean keep-masks.
-/

/-! ## The generation loop (`generate` in the notebook)

`generate(model, new_chars, context, context_length, int_to_char)` loops
`new_chars` times; each iteration reassigns
`context = context[:, -context_length:]`, calls the model, takes the last
time step, applies softmax, draws one index per batch row with
`torch.multinomial(probabilities, 1)`, concatenates the draw onto the
(truncated) context, and appends `int_to_char[next_char.item()]` to the
result list.  `.item()` succeeds only on a one-element tensor, and a
missing dictionary key raises `KeyError`.  The random draw is modelled by
an oracle `draw : step -> probability row -> index`. -/

inductive GenErr where
  | shapeErr : GenErr
  | itemErr : GenErr
  | keyErr : GenErr
deriving DecidableEq

/-- Python slicing `row[-C:]`: for `C > 0` the last `min C len` entries;
for `C = 0` the slice `row[-0:] = row[0:]` is the whole list. -/
def sliceLast (C : ℕ) (row : List ℕ) : List ℕ :=
  if C = 0 then row else row.drop (row.length - C)

/-- Models `context[:, -C:]` applied to a batch of rows. -/
def truncCols (C : ℕ) (context : List (List ℕ)) : List (List ℕ) :=
  context.map (sliceLast C)

/-- Models `prediction[:, -1, :]`: last time step of every batch row; fails on an
empty time axis. -/
def lastTimeStep (prediction : List (List (List ℝ))) :
    Except GenErr (List (List ℝ)) :=
  if prediction.all (fun m => !m.isEmpty) then
    Except.ok (prediction.map (fun m => m.getLastD []))
  else Except.error GenErr.shapeErr

/-- Mathematical softmax over one row of logits (what
`nn.functional.softmax(x, dim=-1)` computes on a row with no `-inf`). -/
noncomputable def softmaxRow (row : List ℝ) : List ℝ :=
  row.map (fun x => Real.exp x / (row.map Real.exp).sum)

/-- Models `torch.multinomial(probabilities, 1)`: one sampled index per batch
row, giving a `(B, 1)` tensor; the sampled value comes from the oracle. -/
def multinomialOne (draw : List ℝ → ℕ) (probabilities : List (List ℝ)) :
    List (List ℕ) :=
  probabilities.map (fun row => [draw row])

/-- Models `torch.Tensor.item()`: succeeds exactly on a one-element tensor. -/
def tensorItem (t : List (List ℕ)) : Except GenErr ℕ :=
  match t with
  | [[x]] => Except.ok x
  | _ => Except.error GenErr.itemErr

/-- Models `torch.cat((context, next_char), dim=-1)`. -/
def appendCols (context next : List (List ℕ)) : List (List ℕ) :=
  List.zipWith (fun row nxt => row ++ nxt) context next

/-- Loop state: the running `context` variable, the `res` list of emitted
characters, and (ghost instrumentation) the list of contexts passed to the
model, in order. -/
structure GenState where
  context : List (List ℕ)
  res : List Char
  inputs : List (List (List ℕ))

/-- One-to-one translation of the `for i in range(new_chars)` loop body of
`generate`; the first `ℕ` argument is the loop counter (feeding the draw
oracle), the second the number of remaining iterations. -/
noncomputable def generateAux
    (model : List (List ℕ) → List (List (List ℝ)))
    (draw : ℕ → List ℝ → ℕ) (context_length : ℕ)
    (int_to_char : ℕ → Option Char) :
    ℕ → ℕ → GenState → GenState × Option GenErr
  | _, 0, s => (s, none)
  | step, Nat.succ n, s =>
    let ctx := truncCols context_length s.context
    let prediction := model ctx
    match lastTimeStep prediction with
    | Except.error e => (⟨s.context, s.res, s.inputs ++ [ctx]⟩, some e)
    | Except.ok last_time_step =>
      let probabilities := last_time_step.map softmaxRow
      let next_char := multinomialOne (draw step) probabilities
      let context2 := appendCols ctx next_char
      match tensorItem next_char with
      | Except.error e => (⟨context2, s.res, s.inputs ++ [ctx]⟩, some e)
      | Except.ok idx =>
        match int_to_char idx with
        | none => (⟨context2, s.res, s.inputs ++ [ctx]⟩, some GenErr.keyErr)
        | some ch =>
            generateAux model draw context_length int_to_char
              (step + 1) n ⟨context2, s.res ++ [ch], s.inputs ++ [ctx]⟩

/-- Models `generate`: runs the loop from the starting context and returns
`"".join(res)`, or the exception the loop raised. -/
noncomputable def generate
    (model : List (List ℕ) → List (List (List ℝ))) (new_chars : ℕ)
    (context : List (List ℕ)) (context_length : ℕ)
    (int_to_char : ℕ → Option Char) (draw : ℕ → List ℝ → ℕ) :
    Except GenErr String :=
  match generateAux model draw context_length int_to_char
      0 new_chars ⟨context, [], []⟩ with
  | (s, none) => Except.ok (String.mk s.res)
  | (_, some e) => Except.error e

/-- The contexts passed to the model during a run of `generate`, in
order. -/
noncomputable def generateInputs
    (model : List (List ℕ) → List (List (List ℝ))) (new_chars : ℕ)
    (context : List (List ℕ)) (context_length : ℕ)
    (int_to_char : ℕ → Option Char) (draw : ℕ → List ℝ → ℕ) :
    List (List (List ℕ)) :=
  ((generateAux model draw context_length int_to_char
      0 new_chars ⟨context, [], []⟩).1).inputs

/-- The running `context` variable at the end of a run of `generate`. -/
noncomputable def generateFinalContext
    (model : List (List ℕ) → List (List (List ℝ))) (new_chars : ℕ)
    (context : List (List ℕ)) (context_length : ℕ)
    (int_to_char : ℕ → Option Char) (draw : ℕ → List ℝ → ℕ) :
    List (List ℕ) :=
  ((generateAux model draw context_length int_to_char
      0 new_chars ⟨context, [], []⟩).1).context

/-- A model obeying the shape contract of `GPT.forward`: one logit matrix
per batch row, with a non-empty time axis. -/
def ModelShapeOK (model : List (List ℕ) → List (List (List ℝ))) : Prop :=
  ∀ ctx, (model ctx).length = ctx.length ∧ ∀ m ∈ model ctx, m ≠ []

/-- Length of one batch row after `row[-C:]`. -/
def inLen (C l : ℕ) : ℕ := if C = 0 then l else min l C

/-- Length of one batch row after one loop iteration: slice to the window,
then append the sampled index. -/
def stepLen (C l : ℕ) : ℕ := inLen C l + 1

/-- Row length after `n` loop iterations starting from length `l`. -/
def runLen (C : ℕ) : ℕ → ℕ → ℕ
  | 0, l => l
  | n + 1, l => runLen C n (stepLen C l)

/-! ## Shape- and index-checked construction and forward pass

PyTorch performs no divisibility check anywhere in the notebook:
`MultiHeadedSelfAttention.__init__` computes `model_dim // num_heads` by
floor division inside a list comprehension and every module constructor
accepts arbitrary sizes, so construction always succeeds.  The checks that
exist are runtime ones: `nn.Embedding` rejects an out-of-range index,
`nn.Linear` rejects a mismatched trailing dimension, and `torch.cat`
rejects an empty tensor list.  Shapes after the embedding sum are rank-3
`(B, T, F)` triples throughout. -/

inductive TErr where
  | indexErr : TErr
  | shapeErr : TErr
deriving DecidableEq

/-- Models `nn.Linear(inF, outF)` applied to a `(B, T, F)` tensor: requires
`F = inF`, produces `(B, T, outF)`. -/
def checkedLinear3 (inF outF : ℕ) (s : ℕ × ℕ × ℕ) :
    Except TErr (ℕ × ℕ × ℕ) :=
  if s.2.2 = inF then Except.ok (s.1, s.2.1, outF)
  else Except.error TErr.shapeErr

/-- Models `nn.LayerNorm(Dm)` applied to a `(B, T, F)` tensor: requires
`F = Dm`, shape-preserving. -/
def LayerNorm_shape (Dm : ℕ) (s : ℕ × ℕ × ℕ) : Except TErr (ℕ × ℕ × ℕ) :=
  if s.2.2 = Dm then Except.ok s else Except.error TErr.shapeErr

/-- Residual addition `x + y`: the two operands here always have equal
shapes when reached, which broadcasting accepts unchanged. -/
def addSameShape (s t : ℕ × ℕ × ℕ) : Except TErr (ℕ × ℕ × ℕ) :=
  if s = t then Except.ok s else Except.error TErr.shapeErr

/-- Models `SingleHeadAttention.forward` shape: the three head projections
`nn.Linear(model_dim, model_dim // num_heads)` demand trailing dimension
`model_dim`; the score matmul, mask, softmax and value matmul then keep
`(B, T, model_dim // num_heads)`. -/
def SingleHeadAttention_shape (Dm Hn : ℕ) (s : ℕ × ℕ × ℕ) :
    Except TErr (ℕ × ℕ × ℕ) :=
  checkedLinear3 Dm (Dm / Hn) s

/-- Models `MultiHeadedSelfAttention.forward` shape: `torch.cat` of the
`num_heads` head outputs along the feature axis (failing when the head
list is empty), then `self.compute = nn.Linear(model_dim, model_dim)`,
whose input check is where an indivisible `model_dim` surfaces; dropout is
shape-preserving. -/
def MultiHeadedSelfAttention_shape (Dm Hn : ℕ) (s : ℕ × ℕ × ℕ) :
    Except TErr (ℕ × ℕ × ℕ) :=
  if Hn = 0 then Except.error TErr.shapeErr
  else do
    let hs ← SingleHeadAttention_shape Dm Hn s
    checkedLinear3 Dm Dm (hs.1, hs.2.1, Hn * hs.2.2)

/-- Models `VanillaNeuralNetwork.forward` shape:
`nn.Linear(model_dim, model_dim * 4)`, ReLU, then
`nn.Linear(model_dim * 4, model_dim)`; dropout shape-preserving. -/
def VanillaNeuralNetwork_shape (Dm : ℕ) (s : ℕ × ℕ × ℕ) :
    Except TErr (ℕ × ℕ × ℕ) := do
  let a ← checkedLinear3 Dm (Dm * 4) s
  checkedLinear3 (Dm * 4) Dm a

/-- Models `TransformerBlock.forward` shape: pre-norm, attention, residual add,
pre-norm, feed-forward, residual add. -/
def TransformerBlock_shape (Dm Hn : ℕ) (s : ℕ × ℕ × ℕ) :
    Except TErr (ℕ × ℕ × ℕ) := do
  let n1 ← LayerNorm_shape Dm s
  let a ← MultiHeadedSelfAttention_shape Dm Hn n1
  let r1 ← addSameShape s a
  let n2 ← LayerNorm_shape Dm r1
  let f ← VanillaNeuralNetwork_shape Dm n2
  addSameShape r1 f

/-- Models `nn.Sequential` of `num_blocks` transformer blocks. -/
def blocksShape (Dm Hn : ℕ) : ℕ → ℕ × ℕ × ℕ → Except TErr (ℕ × ℕ × ℕ)
  | 0, s => Except.ok s
  | n + 1, s => do
    let s1 ← TransformerBlock_shape Dm Hn s
    blocksShape Dm Hn n s1

/-- Models `GPT.forward` with the PyTorch runtime checks: `token_embedding`
rejects any index outside `[0, vocab_size)`;
`pos_embedding(torch.arange(T))` rejects `T > context_length` (the index
`context_length` itself would be looked up); the broadcast sum gives
`(B, T, model_dim)`, which flows through the blocks, the final layer norm
and `vocab_projection`. -/
def GPT_forward_checked (V Cl Dm N Hn B T : ℕ)
    (context : Fin B → Fin T → ℤ) : Except TErr (ℕ × ℕ × ℕ) :=
  if ∀ b t, 0 ≤ context b t ∧ context b t < (V : ℤ) then
    if T ≤ Cl then do
      let s1 ← blocksShape Dm Hn N (B, T, Dm)
      let s2 ← LayerNorm_shape Dm s1
      checkedLinear3 Dm V s2
    else Except.error TErr.indexErr
  else Except.error TErr.indexErr

/-- Models `MultiHeadedSelfAttention.__init__`: builds the head list
`[SingleHeadAttention(model_dim, model_dim // num_heads) for _ in
range(num_heads)]` and `nn.Linear(model_dim, model_dim)`.  Every module
constructor accepts arbitrary sizes, there is no divisibility check, and
with `num_heads = 0` the comprehension body never runs, so construction
never fails; the result records the `(in, out)` size of each layer. -/
def MultiHeadedSelfAttention_init (Dm Hn : ℕ) :
    Except TErr (List (ℕ × ℕ)) :=
  Except.ok ((List.range Hn).map (fun _ => (Dm, Dm / Hn)) ++ [(Dm, Dm)])

/-- Models `TransformerBlock.__init__`: attention, feed-forward and two layer
norms; no check anywhere. -/
def TransformerBlock_init (Dm Hn : ℕ) : Except TErr (List (ℕ × ℕ)) := do
  let m ← MultiHeadedSelfAttention_init Dm Hn
  Except.ok (m ++ [(Dm, Dm * 4), (Dm * 4, Dm), (Dm, Dm), (Dm, Dm)])

/-- The `num_blocks` block constructions inside `GPT.__init__`. -/
def GPT_blocks_init (Dm Hn : ℕ) : ℕ → Except TErr (List (ℕ × ℕ))
  | 0 => Except.ok []
  | n + 1 => do
    let b ← TransformerBlock_init Dm Hn
    let rest ← GPT_blocks_init Dm Hn n
    Except.ok (b ++ rest)

/-- Models `GPT.__init__`: the two embedding tables, `num_blocks` transformer
blocks, the final layer norm and the vocabulary projection; no check
anywhere. -/
def GPT_init (V Cl Dm N Hn : ℕ) : Except TErr (List (ℕ × ℕ)) := do
  let blocks ← GPT_blocks_init Dm Hn N
  Except.ok ([(V, Dm), (Cl, Dm)] ++ blocks ++ [(Dm, Dm), (Dm, V)])

/-- Whether an `Except` computation succeeded. -/
def exceptOk {ε α : Type} : Except ε α → Bool
  | Except.ok _ => true
  | Except.error _ => false

/-! ## Real-valued forward computation

The value-level embedding of the model for valid configurations: the
feature width is `Hn * A` where `A = model_dim // num_heads` is the head
size, so `model_dim = Hn * A` exactly when the divisibility invariant
holds.  Tensors are Fin-indexed real functions; the batch dimension is a
map over rows, which is faithful because every operation used
(`nn.Linear` on the trailing axis, batched matmul, softmax on `dim=-1`,
`nn.LayerNorm` on the trailing axis, `torch.tril` broadcast over the
batch, elementwise dropout, `torch.cat` on `dim=-1`) acts on each batch
row independently.  Dropout takes an explicit training flag and a Boolean
keep-mask; PyTorch keeps an element with probability `1 - p` and scales it
by `1 / (1 - p)` in training mode, and is the identity in eval mode. -/

/-- Models `nn.Linear(D, A, bias=False)` on one feature vector: the stored
weight has shape `(A, D)` and the layer computes `x Wᵗ`. -/
noncomputable def linearNoBias {D A : ℕ} (W : Fin A → Fin D → ℝ)
    (v : Fin D → ℝ) : Fin A → ℝ :=
  fun a => ∑ d, W a d * v d

/-- Models `nn.Linear(D, A)` with bias on one feature vector. -/
noncomputable def linearBias {D A : ℕ} (W : Fin A → Fin D → ℝ)
    (b : Fin A → ℝ) (v : Fin D → ℝ) : Fin A → ℝ :=
  fun a => (∑ d, W a d * v d) + b a

/-- Parameters of `SingleHeadAttention`: three bias-free projections
`model_dim → head_size`. -/
structure SHAParams (D A : ℕ) where
  key_layer : Fin A → Fin D → ℝ
  query_layer : Fin A → Fin D → ℝ
  value_layer : Fin A → Fin D → ℝ

/-- Models `K = self.key_layer(embedded)`. -/
noncomputable def shaK {T D A : ℕ} (p : SHAParams D A)
    (embedded : Fin T → Fin D → ℝ) : Fin T → Fin A → ℝ :=
  fun t => linearNoBias p.key_layer (embedded t)

/-- Models `Q = self.query_layer(embedded)`. -/
noncomputable def shaQ {T D A : ℕ} (p : SHAParams D A)
    (embedded : Fin T → Fin D → ℝ) : Fin T → Fin A → ℝ :=
  fun t => linearNoBias p.query_layer (embedded t)

/-- Models `V = self.value_layer(embedded)`. -/
noncomputable def shaV {T D A : ℕ} (p : SHAParams D A)
    (embedded : Fin T → Fin D → ℝ) : Fin T → Fin A → ℝ :=
  fun t => linearNoBias p.value_layer (embedded t)

/-- Models `scores = Q @ torch.transpose(K, 1, 2) / (A ** 0.5)`. -/
noncomputable def shaScores {T D A : ℕ} (p : SHAParams D A)
    (embedded : Fin T → Fin D → ℝ) (i j : Fin T) : ℝ :=
  (∑ a, shaQ p embedded i a * shaK p embedded j a) / Real.sqrt A

/-- Models `scores.masked_fill(mask == 0, float("-inf"))` with
`mask = torch.tril(torch.ones(T, T))`: entry `(i, j)` keeps its score for
`j ≤ i` and becomes `-inf` (represented as `none`) for `j > i`. -/
noncomputable def shaMasked {T D A : ℕ} (p : SHAParams D A)
    (embedded : Fin T → Fin D → ℝ) (i j : Fin T) : Option ℝ :=
  if j ≤ i then some (shaScores p embedded i j) else none

/-- Models `exp` extended by `exp(-inf) = 0`, which is how a `-inf` entry flows
through softmax. -/
noncomputable def expOpt : Option ℝ → ℝ
  | none => 0
  | some x => Real.exp x

/-- Models `nn.functional.softmax(scores, dim=-1)` applied to the masked score
matrix: row `i`, entry `j`. -/
noncomputable def shaWeights {T D A : ℕ} (p : SHAParams D A)
    (embedded : Fin T → Fin D → ℝ) (i j : Fin T) : ℝ :=
  expOpt (shaMasked p embedded i j) /
    ∑ k, expOpt (shaMasked p embedded i k)

/-- Models `SingleHeadAttention.forward`: `softmax(masked scores) @ V`. -/
noncomputable def shaForward {T D A : ℕ} (p : SHAParams D A)
    (embedded : Fin T → Fin D → ℝ) : Fin T → Fin A → ℝ :=
  fun i a => ∑ j, shaWeights p embedded i j * shaV p embedded j a

/-- Models `nn.Dropout(p)` with an explicit training flag and keep-mask. -/
noncomputable def dropout {T F : ℕ} (p : ℝ) (training : Bool)
    (keep : Fin T → Fin F → Bool) (x : Fin T → Fin F → ℝ) :
    Fin T → Fin F → ℝ :=
  bif training then
    (fun t f => bif keep t f then x t f / (1 - p) else 0)
  else x

/-- Parameters of `MultiHeadedSelfAttention` for a valid configuration
`model_dim = Hn * A`: the `num_heads` independent heads and the output
projection `self.compute = nn.Linear(model_dim, model_dim)`. -/
structure MHSAParams (Hn A : ℕ) where
  attention_heads : Fin Hn → SHAParams (Hn * A) A
  compute_w : Fin (Hn * A) → Fin (Hn * A) → ℝ
  compute_b : Fin (Hn * A) → ℝ

/-- Models `torch.cat([...], dim=-1)` of the head outputs: feature `f` comes
from head `f / A` at offset `f % A`. -/
noncomputable def concatHeads {T Hn A : ℕ}
    (outs : Fin Hn → Fin T → Fin A → ℝ) : Fin T → Fin (Hn * A) → ℝ :=
  fun t f =>
    have hA : 0 < A := by
      rcases Nat.eq_zero_or_pos A with h | h
      · subst h
        exact absurd f.isLt (by simp)
      · exact h
    outs ⟨(f : ℕ) / A, (Nat.div_lt_iff_lt_mul hA).2 f.isLt⟩ t
      ⟨(f : ℕ) % A, Nat.mod_lt _ hA⟩

/-- Models `MultiHeadedSelfAttention.forward`:
`self.dropout(self.compute(torch.cat([head(embedded) for head in
self.attention_heads], dim=-1)))`. -/
noncomputable def mhsaForward {T Hn A : ℕ} (p : MHSAParams Hn A)
    (training : Bool) (keep : Fin T → Fin (Hn * A) → Bool)
    (embedded : Fin T → Fin (Hn * A) → ℝ) : Fin T → Fin (Hn * A) → ℝ :=
  dropout 0.2 training keep
    (fun t => linearBias p.compute_w p.compute_b
      (concatHeads (fun h => shaForward (p.attention_heads h) embedded) t))

/-- Parameters of `VanillaNeuralNetwork`:
`nn.Linear(model_dim, model_dim * 4)`, ReLU,
`nn.Linear(model_dim * 4, model_dim)`. -/
structure VNNParams (Dm : ℕ) where
  first_w : Fin (Dm * 4) → Fin Dm → ℝ
  first_b : Fin (Dm * 4) → ℝ
  second_w : Fin Dm → Fin (Dm * 4) → ℝ
  second_b : Fin Dm → ℝ

/-- Models `nn.ReLU`. -/
noncomputable def relu (x : ℝ) : ℝ := max x 0

/-- Models `VanillaNeuralNetwork.forward`. -/
noncomputable def vnnForward {T Dm : ℕ} (p : VNNParams Dm)
    (training : Bool) (keep : Fin T → Fin Dm → Bool)
    (x : Fin T → Fin Dm → ℝ) : Fin T → Fin Dm → ℝ :=
  dropout 0.2 training keep
    (fun t => linearBias p.second_w p.second_b
      (fun a => relu (linearBias p.first_w p.first_b (x t) a)))

/-- Parameters of `nn.LayerNorm(Dm)` (elementwise affine). -/
structure LNParams (Dm : ℕ) where
  gamma : Fin Dm → ℝ
  beta : Fin Dm → ℝ

/-- The PyTorch LayerNorm epsilon, `1e-5`. -/
noncomputable def lnEps : ℝ := 1 / 100000

/-- Mean over the normalized (trailing) axis. -/
noncomputable def rowMean {Dm : ℕ} (v : Fin Dm → ℝ) : ℝ :=
  (∑ d, v d) / Dm

/-- Biased variance over the normalized axis (what `nn.LayerNorm`
uses). -/
noncomputable def rowVar {Dm : ℕ} (v : Fin Dm → ℝ) : ℝ :=
  (∑ d, (v d - rowMean v) ^ 2) / Dm

/-- Models `nn.LayerNorm(Dm)` on one feature vector. -/
noncomputable def layerNorm {Dm : ℕ} (p : LNParams Dm)
    (v : Fin Dm → ℝ) : Fin Dm → ℝ :=
  fun d => (v d - rowMean v) / Real.sqrt (rowVar v + lnEps) * p.gamma d
    + p.beta d

/-- Parameters of `TransformerBlock`. -/
structure BlockParams (Hn A : ℕ) where
  mhsa : MHSAParams Hn A
  vanilla_nn : VNNParams (Hn * A)
  layer_norm_one : LNParams (Hn * A)
  layer_norm_two : LNParams (Hn * A)

/-- The first reassignment inside `TransformerBlock.forward`:
`embedded = embedded + self.mhsa(self.layer_norm_one(embedded))`. -/
noncomputable def blockMid {T Hn A : ℕ} (p : BlockParams Hn A)
    (training : Bool) (keep1 : Fin T → Fin (Hn * A) → Bool)
    (embedded : Fin T → Fin (Hn * A) → ℝ) : Fin T → Fin (Hn * A) → ℝ :=
  fun t d => embedded t d +
    mhsaForward p.mhsa training keep1
      (fun s => layerNorm p.layer_norm_one (embedded s)) t d

/-- Models `TransformerBlock.forward`: the second reassignment
`embedded = embedded + self.vanilla_nn(self.layer_norm_two(embedded))`
applied to the value after the first one. -/
noncomputable def blockForward {T Hn A : ℕ} (p : BlockParams Hn A)
    (training : Bool) (keep1 keep2 : Fin T → Fin (Hn * A) → Bool)
    (embedded : Fin T → Fin (Hn * A) → ℝ) : Fin T → Fin (Hn * A) → ℝ :=
  fun t d => blockMid p training keep1 embedded t d +
    vnnForward p.vanilla_nn training keep2
      (fun s => layerNorm p.layer_norm_two
        (blockMid p training keep1 embedded s)) t d

/-- Models `nn.Sequential` application of the blocks; the mask supply hands a
fresh keep-mask to every dropout site, two per block. -/
noncomputable def blocksForward {T Hn A : ℕ} (training : Bool)
    (keeps : ℕ → Fin T → Fin (Hn * A) → Bool) :
    ℕ → List (BlockParams Hn A) → (Fin T → Fin (Hn * A) → ℝ) →
    Fin T → Fin (Hn * A) → ℝ
  | _, [], x => x
  | k, p :: ps, x =>
      blocksForward training keeps (k + 2) ps
        (blockForward p training (keeps k) (keeps (k + 1)) x)

/-- Parameters of `GPT` for a valid configuration
`model_dim = Hn * A`. -/
structure GPTParams (V Cl Hn A : ℕ) where
  token_embedding : Fin V → Fin (Hn * A) → ℝ
  pos_embedding : Fin Cl → Fin (Hn * A) → ℝ
  transformer_blocks : List (BlockParams Hn A)
  layer_norm_three : LNParams (Hn * A)
  vocab_projection_w : Fin V → Fin (Hn * A) → ℝ
  vocab_projection_b : Fin V → ℝ

/-- The embedding sum in `GPT.forward` on one batch row: token embedding
lookup plus positional embedding of `torch.arange(T)` (defined only for
`T ≤ context_length`, otherwise the lookup raises). -/
noncomputable def gptEmbed {V Cl Hn A T : ℕ} (p : GPTParams V Cl Hn A)
    (hT : T ≤ Cl) (context : Fin T → Fin V) : Fin T → Fin (Hn * A) → ℝ :=
  fun t d => p.token_embedding (context t) d +
    p.pos_embedding ⟨(t : ℕ), lt_of_lt_of_le t.isLt hT⟩ d

/-- Models `GPT.forward` on one batch row: the embedding sum, the block stack,
the final layer norm and the vocabulary projection. -/
noncomputable def gptForward {V Cl Hn A T : ℕ} (p : GPTParams V Cl Hn A)
    (training : Bool) (keeps : ℕ → Fin T → Fin (Hn * A) → Bool)
    (hT : T ≤ Cl) (context : Fin T → Fin V) : Fin T → Fin V → ℝ :=
  fun t => linearBias p.vocab_projection_w p.vocab_projection_b
    (layerNorm p.layer_norm_three
      (blocksForward training keeps 0 p.transformer_blocks
        (gptEmbed p hT context) t))

/-- Models `SingleHeadAttention.forward` on a batch: independent rows. -/
noncomputable def shaForwardBatch {B T D A : ℕ} (p : SHAParams D A)
    (embedded : Fin B → Fin T → Fin D → ℝ) :
    Fin B → Fin T → Fin A → ℝ :=
  fun b => shaForward p (embedded b)

/-- Models `GPT.forward` on a batch: independent rows, each with its own slice
of the dropout mask supply. -/
noncomputable def gptForwardBatch {B V Cl Hn A T : ℕ}
    (p : GPTParams V Cl Hn A) (training : Bool)
    (keeps : Fin B → ℕ → Fin T → Fin (Hn * A) → Bool)
    (hT : T ≤ Cl) (context : Fin B → Fin T → Fin V) :
    Fin B → Fin T → Fin V → ℝ :=
  fun b => gptForward p training (keeps b) hT (context b)

/-- Written from the words of the spec (§4.4), for comparison with the source
translation `blockForward`: the pre-normalization residual composition
`x1 = x + MultiHeadSelfAttention(LayerNorm_1(x))` followed by
`x2 = x1 + FeedForward(LayerNorm_2(x1))`, each residual addition using
the un-normalized value. -/
noncomputable def blockSpecPreNorm {T Hn A : ℕ} (p : BlockParams Hn A)
    (training : Bool) (keep1 keep2 : Fin T → Fin (Hn * A) → Bool)
    (x : Fin T → Fin (Hn * A) → ℝ) : Fin T → Fin (Hn * A) → ℝ :=
  let x1 : Fin T → Fin (Hn * A) → ℝ := fun t d => x t d +
    mhsaForward p.mhsa training keep1
      (fun s => layerNorm p.layer_norm_one (x s)) t d
  let x2 : Fin T → Fin (Hn * A) → ℝ := fun t d => x1 t d +
    vnnForward p.vanilla_nn training keep2
      (fun s => layerNorm p.layer_norm_two (x1 s)) t d
  x2

/-! ## Concrete instances used by witnesses and counterexamples -/

/-- A model obeying the `GPT.forward` shape contract: one `1 × 1` logit
matrix per batch row. -/
noncomputable def model0 : List (List ℕ) → List (List (List ℝ)) :=
  fun ctx => ctx.map (fun _ => [[0]])

/-- A deterministic multinomial oracle: always draws index `0`. -/
def draw0 : ℕ → List ℝ → ℕ := fun _ _ => 0

/-- A total `int_to_char` dictionary. -/
def i2c0 : ℕ → Option Char := fun _ => some 'a'

/-- All-zero single-head attention parameters. -/
noncomputable def zeroSHA (D A : ℕ) : SHAParams D A :=
  ⟨fun _ _ => 0, fun _ _ => 0, fun _ _ => 0⟩

/-- All-zero multi-head attention parameters. -/
noncomputable def zeroMHSA (Hn A : ℕ) : MHSAParams Hn A :=
  ⟨fun _ => zeroSHA (Hn * A) A, fun _ _ => 0, fun _ => 0⟩

/-- All-zero feed-forward parameters. -/
noncomputable def zeroVNN (Dm : ℕ) : VNNParams Dm :=
  ⟨fun _ _ => 0, fun _ => 0, fun _ _ => 0, fun _ => 0⟩

/-- Layer-norm parameters at their initialization values. -/
noncomputable def unitLN (Dm : ℕ) : LNParams Dm :=
  ⟨fun _ => 1, fun _ => 0⟩

/-- A concrete transformer block. -/
noncomputable def zeroBlock (Hn A : ℕ) : BlockParams Hn A :=
  ⟨zeroMHSA Hn A, zeroVNN (Hn * A), unitLN (Hn * A), unitLN (Hn * A)⟩

/-- A concrete one-block GPT parameter set. -/
noncomputable def zeroGPT (V Cl Hn A : ℕ) : GPTParams V Cl Hn A :=
  ⟨fun _ _ => 0, fun _ _ => 0, [zeroBlock Hn A], unitLN (Hn * A),
    fun _ _ => 0, fun _ => 0⟩

/-- A batched input over two positions whose value at position `1`
differs from the all-zero input `xZero`. -/
noncomputable def xTail : Fin 1 → Fin 2 → Fin (1 * 1) → ℝ :=
  fun _ t _ => if (t : ℕ) = 0 then 0 else 1

/-- The all-zero batched input over two positions. -/
noncomputable def xZero : Fin 1 → Fin 2 → Fin (1 * 1) → ℝ :=
  fun _ _ _ => 0

/-- A concrete batched token context over two positions. -/
def cZero : Fin 1 → Fin 2 → Fin 1 := fun _ _ => 0

/-! ## Helper lemmas -/

theorem except_bind_ok {α β ε : Type} (a : α) (f : α → Except ε β) :
    (Except.ok a >>= f) = f a := rfl

theorem except_bind_error {α β ε : Type} (e : ε) (f : α → Except ε β) :
    ((Except.error e : Except ε α) >>= f) = Except.error e := rfl

theorem expOpt_none : expOpt none = 0 := rfl

theorem expOpt_some (x : ℝ) : expOpt (some x) = Real.exp x := rfl

theorem shaWeights_of_not_le {T D A : ℕ} (p : SHAParams D A)
    (x : Fin T → Fin D → ℝ) {i j : Fin T} (h : ¬ j ≤ i) :
    shaWeights p x i j = 0 := by
  unfold shaWeights shaMasked
  rw [if_neg h, expOpt_none, zero_div]

theorem shaDenom_eq {T D A : ℕ} (p : SHAParams D A)
    (x : Fin T → Fin D → ℝ) (i : Fin T) :
    (∑ k, expOpt (shaMasked p x i k)) =
      ∑ k ∈ Finset.univ.filter (fun k => k ≤ i),
        Real.exp (shaScores p x i k) := by
  classical
  rw [← Finset.sum_filter_add_sum_filter_not Finset.univ (fun k => k ≤ i)
    (fun k => expOpt (shaMasked p x i k))]
  have h1 : ∀ k ∈ Finset.univ.filter (fun k => k ≤ i),
      expOpt (shaMasked p x i k) = Real.exp (shaScores p x i k) := by
    intro k hk
    rw [Finset.mem_filter] at hk
    unfold shaMasked
    rw [if_pos hk.2, expOpt_some]
  have h2 : ∀ k ∈ Finset.univ.filter (fun k => ¬ k ≤ i),
      expOpt (shaMasked p x i k) = 0 := by
    intro k hk
    rw [Finset.mem_filter] at hk
    unfold shaMasked
    rw [if_neg hk.2, expOpt_none]
  rw [Finset.sum_congr rfl h1, Finset.sum_congr rfl h2,
    Finset.sum_const_zero, add_zero]

theorem shaDenom_pos {T D A : ℕ} (p : SHAParams D A)
    (x : Fin T → Fin D → ℝ) (i : Fin T) :
    0 < ∑ k, expOpt (shaMasked p x i k) := by
  rw [shaDenom_eq]
  apply Finset.sum_pos
  · intro k _
    exact Real.exp_pos _
  · exact ⟨i, Finset.mem_filter.2 ⟨Finset.mem_univ i, le_refl i⟩⟩

theorem shaWeights_rowsum {T D A : ℕ} (p : SHAParams D A)
    (x : Fin T → Fin D → ℝ) (i : Fin T) :
    (∑ j ∈ Finset.univ.filter (fun j => j ≤ i), shaWeights p x i j) = 1 := by
  classical
  unfold shaWeights
  rw [← Finset.sum_div]
  have hnum : (∑ j ∈ Finset.univ.filter (fun j => j ≤ i),
      expOpt (shaMasked p x i j)) = ∑ k, expOpt (shaMasked p x i k) := by
    rw [shaDenom_eq]
    apply Finset.sum_congr rfl
    intro k hk
    rw [Finset.mem_filter] at hk
    unfold shaMasked
    rw [if_pos hk.2, expOpt_some]
  rw [hnum]
  exact div_self (ne_of_gt (shaDenom_pos p x i))

theorem shaForward_agree {T D A : ℕ} (p : SHAParams D A)
    (x y : Fin T → Fin D → ℝ) (i : Fin T)
    (h : ∀ t, t ≤ i → x t = y t) :
    shaForward p x i = shaForward p y i := by
  have hs : ∀ j, j ≤ i → shaScores p x i j = shaScores p y i j := by
    intro j hj
    unfold shaScores shaQ shaK linearNoBias
    rw [h i (le_refl i), h j hj]
  have hm : ∀ k, shaMasked p x i k = shaMasked p y i k := by
    intro k
    unfold shaMasked
    by_cases hk : k ≤ i
    · rw [if_pos hk, if_pos hk, hs k hk]
    · rw [if_neg hk, if_neg hk]
  have hw : ∀ j, shaWeights p x i j = shaWeights p y i j := by
    intro j
    unfold shaWeights
    rw [hm j]
    congr 1
    exact Finset.sum_congr rfl (fun k _ => by rw [hm k])
  funext a
  unfold shaForward
  apply Finset.sum_congr rfl
  intro j _
  by_cases hj : j ≤ i
  · rw [hw j]
    unfold shaV linearNoBias
    rw [h j hj]
  · rw [shaWeights_of_not_le p x hj, shaWeights_of_not_le p y hj,
      zero_mul, zero_mul]

theorem dropout_congrAt {T F : ℕ} (p : ℝ) (training : Bool)
    (keep : Fin T → Fin F → Bool) (x y : Fin T → Fin F → ℝ) (t : Fin T)
    (h : x t = y t) :
    dropout p training keep x t = dropout p training keep y t := by
  unfold dropout
  cases training
  · exact h
  · funext f
    simp only [cond_true]
    rw [h]

theorem mhsaForward_agree {T Hn A : ℕ} (p : MHSAParams Hn A)
    (training : Bool) (keep : Fin T → Fin (Hn * A) → Bool)
    (x y : Fin T → Fin (Hn * A) → ℝ) (i : Fin T)
    (h : ∀ t, t ≤ i → x t = y t) :
    ∀ t, t ≤ i →
      mhsaForward p training keep x t = mhsaForward p training keep y t := by
  intro t ht
  have hsha : ∀ hd : Fin Hn,
      shaForward (p.attention_heads hd) x t =
        shaForward (p.attention_heads hd) y t :=
    fun hd => shaForward_agree (p.attention_heads hd) x y t
      (fun s hs => h s (le_trans hs ht))
  unfold mhsaForward
  apply dropout_congrAt
  have hcat : concatHeads (fun hd => shaForward (p.attention_heads hd) x) t
      = concatHeads (fun hd => shaForward (p.attention_heads hd) y) t := by
    funext f
    unfold concatHeads
    exact congrFun (hsha _) _
  rw [hcat]

theorem vnnForward_congrAt {T Dm : ℕ} (p : VNNParams Dm)
    (training : Bool) (keep : Fin T → Fin Dm → Bool)
    (x y : Fin T → Fin Dm → ℝ) (t : Fin T) (h : x t = y t) :
    vnnForward p training keep x t = vnnForward p training keep y t := by
  unfold vnnForward
  apply dropout_congrAt
  rw [h]

theorem blockMid_agree {T Hn A : ℕ} (p : BlockParams Hn A)
    (training : Bool) (keep1 : Fin T → Fin (Hn * A) → Bool)
    (x y : Fin T → Fin (Hn * A) → ℝ) (i : Fin T)
    (h : ∀ t, t ≤ i → x t = y t) :
    ∀ t, t ≤ i →
      blockMid p training keep1 x t = blockMid p training keep1 y t := by
  intro t ht
  have hln : ∀ s, s ≤ i →
      (fun s => layerNorm p.layer_norm_one (x s)) s =
        (fun s => layerNorm p.layer_norm_one (y s)) s := by
    intro s hs
    simp only
    rw [h s hs]
  have hm := mhsaForward_agree p.mhsa training keep1 _ _ i hln t ht
  unfold blockMid
  funext d
  rw [h t ht, hm]

theorem blockForward_agree {T Hn A : ℕ} (p : BlockParams Hn A)
    (training : Bool) (keep1 keep2 : Fin T → Fin (Hn * A) → Bool)
    (x y : Fin T → Fin (Hn * A) → ℝ) (i : Fin T)
    (h : ∀ t, t ≤ i → x t = y t) :
    ∀ t, t ≤ i →
      blockForward p training keep1 keep2 x t =
        blockForward p training keep1 keep2 y t := by
  intro t ht
  have hmid := blockMid_agree p training keep1 x y i h
  have hln2 : ∀ s, s ≤ i →
      (fun s => layerNorm p.layer_norm_two
          (blockMid p training keep1 x s)) s =
        (fun s => layerNorm p.layer_norm_two
          (blockMid p training keep1 y s)) s := by
    intro s hs
    simp only
    rw [hmid s hs]
  have hv : ∀ s, s ≤ i →
      vnnForward p.vanilla_nn training keep2
          (fun s => layerNorm p.layer_norm_two
            (blockMid p training keep1 x s)) s =
        vnnForward p.vanilla_nn training keep2
          (fun s => layerNorm p.layer_norm_two
            (blockMid p training keep1 y s)) s := by
    intro s hs
    apply vnnForward_congrAt
    exact hln2 s hs
  unfold blockForward
  funext d
  rw [hmid t ht, hv t ht]

theorem blocksForward_agree {T Hn A : ℕ} (training : Bool)
    (keeps : ℕ → Fin T → Fin (Hn * A) → Bool) (i : Fin T) :
    ∀ (ps : List (BlockParams Hn A)) (k : ℕ)
      (x y : Fin T → Fin (Hn * A) → ℝ),
      (∀ t, t ≤ i → x t = y t) →
      ∀ t, t ≤ i →
        blocksForward training keeps k ps x t =
          blocksForward training keeps k ps y t := by
  intro ps
  induction ps with
  | nil =>
    intro k x y h t ht
    exact h t ht
  | cons p rest ih =>
    intro k x y h t ht
    exact ih (k + 2) _ _
      (blockForward_agree p training (keeps k) (keeps (k + 1)) x y i h) t ht

theorem gptForward_agree {V Cl Hn A T : ℕ} (p : GPTParams V Cl Hn A)
    (training : Bool) (keeps : ℕ → Fin T → Fin (Hn * A) → Bool)
    (hT : T ≤ Cl) (c1 c2 : Fin T → Fin V) (i : Fin T)
    (hc : ∀ t, t ≤ i → c1 t = c2 t) :
    ∀ t, t ≤ i →
      gptForward p training keeps hT c1 t =
        gptForward p training keeps hT c2 t := by
  intro t ht
  have hembed : ∀ s, s ≤ i → gptEmbed p hT c1 s = gptEmbed p hT c2 s := by
    intro s hs
    funext d
    unfold gptEmbed
    rw [hc s hs]
  have hout := blocksForward_agree training keeps i p.transformer_blocks 0
    (gptEmbed p hT c1) (gptEmbed p hT c2) hembed t ht
  unfold gptForward
  rw [hout]

theorem dropout_false {T F : ℕ} (p : ℝ) (keep : Fin T → Fin F → Bool)
    (x : Fin T → Fin F → ℝ) : dropout p false keep x = x := rfl

theorem blockForward_keeps_irrel {T Hn A : ℕ} (p : BlockParams Hn A)
    (k1 k2 k1' k2' : Fin T → Fin (Hn * A) → Bool)
    (x : Fin T → Fin (Hn * A) → ℝ) :
    blockForward p false k1 k2 x = blockForward p false k1' k2' x := rfl

theorem blocksForward_keeps_irrel {T Hn A : ℕ} :
    ∀ (ps : List (BlockParams Hn A)) (k k' : ℕ)
      (keeps keeps' : ℕ → Fin T → Fin (Hn * A) → Bool)
      (x : Fin T → Fin (Hn * A) → ℝ),
      blocksForward false keeps k ps x = blocksForward false keeps' k' ps x := by
  intro ps
  induction ps with
  | nil => intro k k' keeps keeps' x; rfl
  | cons p rest ih =>
    intro k k' keeps keeps' x
    show blocksForward false keeps (k + 2) rest
        (blockForward p false (keeps k) (keeps (k + 1)) x) = _
    rw [blockForward_keeps_irrel p (keeps k) (keeps (k + 1))
      (keeps' k') (keeps' (k' + 1)) x]
    exact ih (k + 2) (k' + 2) keeps keeps' _

theorem block_shape_ok {Dm Hn B T : ℕ} (h1 : Hn ≠ 0) (h2 : Hn ∣ Dm) :
    TransformerBlock_shape Dm Hn (B, T, Dm) = Except.ok (B, T, Dm) := by
  have hmul : Hn * (Dm / Hn) = Dm := Nat.mul_div_cancel' h2
  simp [TransformerBlock_shape, LayerNorm_shape,
    MultiHeadedSelfAttention_shape, SingleHeadAttention_shape,
    checkedLinear3, VanillaNeuralNetwork_shape, addSameShape, h1, hmul,
    except_bind_ok]

theorem block_shape_err {Dm Hn B T : ℕ} (h : ¬ Hn ∣ Dm) :
    TransformerBlock_shape Dm Hn (B, T, Dm) =
      Except.error TErr.shapeErr := by
  by_cases hz : Hn = 0
  · subst hz
    simp [TransformerBlock_shape, LayerNorm_shape,
      MultiHeadedSelfAttention_shape, except_bind_ok, except_bind_error]
  · have hne : Hn * (Dm / Hn) ≠ Dm := by
      intro heq
      exact h ⟨Dm / Hn, heq.symm⟩
    simp [TransformerBlock_shape, LayerNorm_shape,
      MultiHeadedSelfAttention_shape, SingleHeadAttention_shape,
      checkedLinear3, hz, hne, except_bind_ok, except_bind_error]

theorem blocksShape_ok {Dm Hn B T : ℕ} (h1 : Hn ≠ 0) (h2 : Hn ∣ Dm) :
    ∀ N, blocksShape Dm Hn N (B, T, Dm) = Except.ok (B, T, Dm) := by
  intro N
  induction N with
  | zero => rfl
  | succ n ih =>
    simp [blocksShape, block_shape_ok h1 h2, ih, except_bind_ok]

theorem blocksShape_err {Dm Hn B T : ℕ} (h : ¬ Hn ∣ Dm) (N : ℕ)
    (hN : 1 ≤ N) :
    blocksShape Dm Hn N (B, T, Dm) = Except.error TErr.shapeErr := by
  obtain ⟨n, rfl⟩ : ∃ n, N = n + 1 := ⟨N - 1, by omega⟩
  simp [blocksShape, block_shape_err h, except_bind_error]

theorem gpt_forward_checked_ok {V Cl Dm N Hn B T : ℕ}
    (ctx : Fin B → Fin T → ℤ)
    (htok : ∀ b t, 0 ≤ ctx b t ∧ ctx b t < (V : ℤ)) (hT : T ≤ Cl)
    (h1 : Hn ≠ 0) (h2 : Hn ∣ Dm) :
    GPT_forward_checked V Cl Dm N Hn B T ctx = Except.ok (B, T, V) := by
  unfold GPT_forward_checked
  rw [if_pos htok, if_pos hT]
  simp [blocksShape_ok h1 h2, LayerNorm_shape, checkedLinear3,
    except_bind_ok]

theorem gpt_forward_checked_badtok {V Cl Dm N Hn B T : ℕ}
    (ctx : Fin B → Fin T → ℤ)
    (hbad : ¬ ∀ b t, 0 ≤ ctx b t ∧ ctx b t < (V : ℤ)) :
    GPT_forward_checked V Cl Dm N Hn B T ctx =
      Except.error TErr.indexErr := by
  unfold GPT_forward_checked
  rw [if_neg hbad]

theorem gpt_forward_checked_long {V Cl Dm N Hn B T : ℕ}
    (ctx : Fin B → Fin T → ℤ)
    (htok : ∀ b t, 0 ≤ ctx b t ∧ ctx b t < (V : ℤ)) (hlong : Cl < T) :
    GPT_forward_checked V Cl Dm N Hn B T ctx =
      Except.error TErr.indexErr := by
  unfold GPT_forward_checked
  rw [if_pos htok, if_neg (not_le.mpr hlong)]

theorem gpt_forward_checked_indiv {V Cl Dm N Hn B T : ℕ}
    (ctx : Fin B → Fin T → ℤ)
    (htok : ∀ b t, 0 ≤ ctx b t ∧ ctx b t < (V : ℤ)) (hT : T ≤ Cl)
    (h : ¬ Hn ∣ Dm) (hN : 1 ≤ N) :
    GPT_forward_checked V Cl Dm N Hn B T ctx =
      Except.error TErr.shapeErr := by
  unfold GPT_forward_checked
  rw [if_pos htok, if_pos hT]
  simp [blocksShape_err h N hN, except_bind_error]

theorem GPT_blocks_init_ok (Dm Hn : ℕ) :
    ∀ n, exceptOk (GPT_blocks_init Dm Hn n) = true := by
  intro n
  induction n with
  | zero => rfl
  | succ m ih =>
    cases h : GPT_blocks_init Dm Hn m with
    | error e =>
      rw [h] at ih
      exact absurd ih (by simp [exceptOk])
    | ok l =>
      simp [GPT_blocks_init, TransformerBlock_init,
        MultiHeadedSelfAttention_init, h, except_bind_ok, exceptOk]

theorem GPT_init_ok (V Cl Dm N Hn : ℕ) :
    exceptOk (GPT_init V Cl Dm N Hn) = true := by
  cases h : GPT_blocks_init Dm Hn N with
  | error e =>
    have hh := GPT_blocks_init_ok Dm Hn N
    rw [h] at hh
    exact absurd hh (by simp [exceptOk])
  | ok l => simp [GPT_init, h, except_bind_ok, exceptOk]

theorem sliceLast_length (C : ℕ) (r : List ℕ) :
    (sliceLast C r).length = inLen C r.length := by
  unfold sliceLast inLen
  by_cases h : C = 0
  · simp [h]
  · rw [if_neg h, if_neg h, List.length_drop]
    omega

theorem runLen_zero (C l : ℕ) : runLen C 0 l = l := rfl

theorem runLen_succ (C n l : ℕ) :
    runLen C (n + 1) l = runLen C n (stepLen C l) := rfl

theorem runLen_min (C : ℕ) (hC : 1 ≤ C) :
    ∀ k l, 1 ≤ k → runLen C k l = min (l + k) (C + 1) := by
  intro k
  induction k with
  | zero => intro l h; exact absurd h (by omega)
  | succ n ih =>
    intro l _
    rw [runLen_succ]
    rcases Nat.eq_zero_or_pos n with h0 | hpos
    · subst h0
      rw [runLen_zero]
      unfold stepLen inLen
      rw [if_neg (by omega : ¬ C = 0)]
      omega
    · rw [ih (stepLen C l) hpos]
      unfold stepLen inLen
      rw [if_neg (by omega : ¬ C = 0)]
      omega

theorem inLen_runLen (C : ℕ) (hC : 1 ≤ C) (j l : ℕ) :
    inLen C (runLen C j l) = min (l + j) C := by
  rcases Nat.eq_zero_or_pos j with h0 | hpos
  · subst h0
    rw [runLen_zero]
    unfold inLen
    rw [if_neg (by omega : ¬ C = 0)]
    omega
  · rw [runLen_min C hC j l hpos]
    unfold inLen
    rw [if_neg (by omega : ¬ C = 0)]
    omega

theorem lastTimeStep_cons (hd : List ℝ) (tl : List (List ℝ)) :
    lastTimeStep [hd :: tl] = Except.ok [(hd :: tl).getLastD []] := by
  simp [lastTimeStep]

theorem generateAux_step
    (model : List (List ℕ) → List (List (List ℝ)))
    (draw : ℕ → List ℝ → ℕ) (C : ℕ) (i2c : ℕ → Option Char)
    (step n : ℕ) (r : List ℕ) (res : List Char)
    (inp : List (List (List ℕ))) (hd : List ℝ) (tl : List (List ℝ))
    (hm : model [sliceLast C r] = [hd :: tl]) (ch : Char)
    (hch : i2c (draw step (softmaxRow ((hd :: tl).getLastD []))) = some ch) :
    generateAux model draw C i2c step (n + 1) ⟨[r], res, inp⟩ =
      generateAux model draw C i2c (step + 1) n
        ⟨[sliceLast C r ++
            [draw step (softmaxRow ((hd :: tl).getLastD []))]],
          res ++ [ch], inp ++ [[sliceLast C r]]⟩ := by
  simp only [generateAux, truncCols, List.map_cons, List.map_nil, hm,
    lastTimeStep_cons, multinomialOne, tensorItem, appendCols,
    List.zipWith_cons_cons, List.zipWith_nil_right, hch]

theorem generateAux_run
    (model : List (List ℕ) → List (List (List ℝ)))
    (draw : ℕ → List ℝ → ℕ) (C : ℕ) (i2c : ℕ → Option Char)
    (hM : ModelShapeOK model)
    (hcov : ∀ k row, (i2c (draw k row)).isSome = true) :
    ∀ n step r res inp,
      (generateAux model draw C i2c step n ⟨[r], res, inp⟩).2 = none ∧
      ((generateAux model draw C i2c step n ⟨[r], res, inp⟩).1).res.length
        = res.length + n ∧
      ((generateAux model draw C i2c step n
          ⟨[r], res, inp⟩).1).context.map List.length
        = [runLen C n r.length] ∧
      ((generateAux model draw C i2c step n
          ⟨[r], res, inp⟩).1).inputs.map (fun mm => mm.map List.length)
        = inp.map (fun mm => mm.map List.length) ++
          (List.range n).map (fun j => [inLen C (runLen C j r.length)]) := by
  intro n
  induction n with
  | zero =>
    intro step r res inp
    exact ⟨rfl, rfl, rfl, by simp [generateAux]⟩
  | succ n ih =>
    intro step r res inp
    obtain ⟨m, hm⟩ : ∃ m, model [sliceLast C r] = [m] :=
      List.length_eq_one.mp (by simpa using (hM [sliceLast C r]).1)
    cases m with
    | nil =>
      have hne := (hM [sliceLast C r]).2 []
        (by rw [hm]; exact List.mem_singleton.mpr rfl)
      exact absurd rfl hne
    | cons hd tl =>
      obtain ⟨ch, hch⟩ := Option.isSome_iff_exists.mp
        (hcov step (softmaxRow ((hd :: tl).getLastD [])))
      rw [generateAux_step model draw C i2c step n r res inp hd tl hm ch hch]
      obtain ⟨ha, hb, hc2, hd2⟩ := ih (step + 1)
        (sliceLast C r ++ [draw step (softmaxRow ((hd :: tl).getLastD []))])
        (res ++ [ch]) (inp ++ [[sliceLast C r]])
      have hlen : (sliceLast C r ++
          [draw step (softmaxRow ((hd :: tl).getLastD []))]).length
          = stepLen C r.length := by
        rw [List.length_append, sliceLast_length]
        rfl
      refine ⟨ha, ?_, ?_, ?_⟩
      · rw [hb, List.length_append]
        simp
        omega
      · rw [hc2, hlen, ← runLen_succ]
      · rw [hd2, hlen, List.map_append, List.range_succ_eq_map]
        simp only [List.map_cons, List.map_map, List.map_nil,
          List.singleton_append, List.append_assoc, Function.comp,
          sliceLast_length, runLen_zero, runLen_succ]
        have hf : ((fun j => [inLen C (runLen C j r.length)]) ∘ Nat.succ)
            = fun j => [inLen C (runLen C j (stepLen C r.length))] := by
          funext j
          rfl
        rw [hf]

theorem model0_ok : ModelShapeOK model0 := by
  intro ctx
  constructor
  · simp [model0]
  · intro m hm
    rcases List.mem_map.mp hm with ⟨a, ha, rfl⟩
    simp

theorem i2c0_cov (draw : ℕ → List ℝ → ℕ) :
    ∀ k row, (i2c0 (draw k row)).isSome = true := fun _ _ => rfl

theorem generate_ok_length
    (model : List (List ℕ) → List (List (List ℝ)))
    (draw : ℕ → List ℝ → ℕ) (C : ℕ) (i2c : ℕ → Option Char)
    (hM : ModelShapeOK model)
    (hcov : ∀ k row, (i2c (draw k row)).isSome = true)
    (n : ℕ) (r : List ℕ) :
    ∃ out, generate model n [r] C i2c draw = Except.ok out ∧
      out.length = n ∧
      (generateInputs model n [r] C i2c draw).length = n := by
  obtain ⟨h1, h2, h3, h4⟩ := generateAux_run model draw C i2c hM hcov n 0 r [] []
  unfold generate generateInputs
  rcases he : generateAux model draw C i2c 0 n ⟨[r], [], []⟩ with ⟨s, o⟩
  rw [he] at h1 h2 h4
  cases o with
  | some e => exact absurd h1 (by simp)
  | none =>
    refine ⟨String.mk s.res, rfl, ?_, ?_⟩
    · have h2a : s.res.length = n := by simpa using h2
      simpa [String.length_mk] using h2a
    · have h4a := congrArg List.length h4
      simpa using h4a

/-! ## Claim theorems -/

/-- C3 counterexample: with batch size 2, `generate` raises at
`next_char.item()` on the very first iteration (a `(2, 1)` tensor has two
elements), so it does not produce `new_chars` indices per batch row as
claimed for every batch size. -/
theorem generate_item_fails_batch_two :
    generate model0 1 [[0], [0]] 5 i2c0 draw0 =
      Except.error GenErr.itemErr := rfl

/-- C3 (amended): for batch size 1, a model obeying the logits shape
contract, and an `int_to_char` dictionary covering every sampled index,
`generate` succeeds, draws one index per step (the model is invoked
exactly `new_chars` times, one multinomial draw each), and produces
exactly `new_chars` newly generated indices. -/
theorem generate_batch_one_produces_new_chars
    (model : List (List ℕ) → List (List (List ℝ)))
    (draw : ℕ → List ℝ → ℕ) (C : ℕ) (i2c : ℕ → Option Char)
    (hM : ModelShapeOK model)
    (hcov : ∀ k row, (i2c (draw k row)).isSome = true)
    (n : ℕ) (r : List ℕ) :
    ∃ out, generate model n [r] C i2c draw = Except.ok out ∧
      out.length = n ∧
      (generateInputs model n [r] C i2c draw).length = n :=
  generate_ok_length model draw C i2c hM hcov n r

/-- C3 witness. -/
theorem generate_batch_one_produces_new_chars_check :
    ∃ out, generate model0 2 [[0]] 3 i2c0 draw0 = Except.ok out ∧
      out.length = 2 ∧
      (generateInputs model0 2 [[0]] 3 i2c0 draw0).length = 2 :=
  generate_batch_one_produces_new_chars model0 draw0 3 i2c0 model0_ok
    (i2c0_cov draw0) 2 [0]

/-- C4 counterexample: starting from a context of length `T0 = 1` with
`context_length = 1`, after `k = 2` steps the running context has length
2, not `T0 + k = 3`: the loop reassigns the truncated slice to `context`
before appending, so the running context does not grow without bound. -/
theorem running_context_truncated_cex :
    (generateFinalContext model0 2 [[5]] 1 i2c0 draw0).map List.length
      = [2] ∧ (2 : ℕ) ≠ 1 + 2 :=
  ⟨rfl, by decide⟩

/-- C4 (amended): the running context is truncated in place: each
iteration reassigns `context = context[:, -context_length:]` and appends
the sampled index to that truncated value, so for `context_length ≥ 1`,
after `k ≥ 1` steps the running context has length
`min (T0 + k) (context_length + 1)`, not `T0 + k`. -/
theorem running_context_length_windowed
    (model : List (List ℕ) → List (List (List ℝ)))
    (draw : ℕ → List ℝ → ℕ) (C : ℕ) (i2c : ℕ → Option Char)
    (hM : ModelShapeOK model)
    (hcov : ∀ k row, (i2c (draw k row)).isSome = true)
    (hC : 1 ≤ C) (k : ℕ) (hk : 1 ≤ k) (r : List ℕ) :
    (generateFinalContext model k [r] C i2c draw).map List.length
      = [min (r.length + k) (C + 1)] := by
  obtain ⟨h1, h2, h3, h4⟩ := generateAux_run model draw C i2c hM hcov k 0 r [] []
  unfold generateFinalContext
  rw [h3, runLen_min C hC k r.length hk]

/-- C4 witness. -/
theorem running_context_length_windowed_check :
    (generateFinalContext model0 3 [[0]] 2 i2c0 draw0).map List.length
      = [3] := by
  have h := running_context_length_windowed model0 draw0 2 i2c0 model0_ok
    (i2c0_cov draw0) (by decide) 3 (by decide) [0]
  rw [h]
  decide

/-- C5 counterexample: with `context_length = 0`, the Python `-0:` slice is
the whole row, so the model receives a context of length 1, not
`min 1 0 = 0`. -/
theorem sliding_window_zero_length_cex :
    (generateInputs model0 1 [[5]] 0 i2c0 draw0).map
        (fun mm => mm.map List.length) = [[1]] ∧
      (1 : ℕ) ≠ min 1 0 :=
  ⟨rfl, by decide⟩

/-- C5 (amended): for `context_length ≥ 1`, the context passed to the
model at step `j` (counting from 0) has length exactly
`min (T0 + j) context_length`, where `T0 + j` is the number of tokens
generated or given so far; in particular the model is never invoked on a
context longer than `context_length`. -/
theorem sliding_window_inputs
    (model : List (List ℕ) → List (List (List ℝ)))
    (draw : ℕ → List ℝ → ℕ) (C : ℕ) (i2c : ℕ → Option Char)
    (hM : ModelShapeOK model)
    (hcov : ∀ k row, (i2c (draw k row)).isSome = true)
    (hC : 1 ≤ C) (n : ℕ) (r : List ℕ) :
    (generateInputs model n [r] C i2c draw).map
        (fun mm => mm.map List.length)
      = (List.range n).map (fun j => [min (r.length + j) C]) := by
  obtain ⟨h1, h2, h3, h4⟩ := generateAux_run model draw C i2c hM hcov n 0 r [] []
  unfold generateInputs
  rw [h4]
  simp only [List.map_nil, List.nil_append]
  have hf : (fun j => [inLen C (runLen C j r.length)])
      = fun j => [min (r.length + j) C] := by
    funext j
    rw [inLen_runLen C hC]
  rw [hf]

/-- C5 witness. -/
theorem sliding_window_inputs_check :
    (generateInputs model0 2 [[0]] 1 i2c0 draw0).map
        (fun mm => mm.map List.length) = [[1], [1]] := by
  have h := sliding_window_inputs model0 draw0 1 i2c0 model0_ok
    (i2c0_cov draw0) (by decide) 2 [0]
  rw [h]
  decide

/-- C10: for batch size 1, a model obeying the logits shape contract and
an `int_to_char` dictionary covering every sampled index, `generate`
returns a string of length exactly `new_chars`; and with `new_chars = 0`
it returns the empty string without invoking the model, for any starting
context. -/
theorem generate_string_length_and_zero_case
    (model : List (List ℕ) → List (List (List ℝ)))
    (draw : ℕ → List ℝ → ℕ) (C : ℕ) (i2c : ℕ → Option Char)
    (hM : ModelShapeOK model)
    (hcov : ∀ k row, (i2c (draw k row)).isSome = true)
    (n : ℕ) (r : List ℕ) (start : List (List ℕ)) :
    (∃ out, generate model n [r] C i2c draw = Except.ok out ∧
      out.length = n) ∧
    generate model 0 start C i2c draw = Except.ok "" ∧
    generateInputs model 0 start C i2c draw = [] := by
  refine ⟨?_, rfl, rfl⟩
  obtain ⟨out, hout, hlen, _⟩ := generate_ok_length model draw C i2c hM hcov n r
  exact ⟨out, hout, hlen⟩

/-- C10 witness. -/
theorem generate_string_length_and_zero_case_check :
    (∃ out, generate model0 1 [[0]] 4 i2c0 draw0 = Except.ok out ∧
      out.length = 1) ∧
    generate model0 0 [[0], [0]] 4 i2c0 draw0 = Except.ok "" ∧
    generateInputs model0 0 [[0], [0]] 4 i2c0 draw0 = [] :=
  generate_string_length_and_zero_case model0 draw0 4 i2c0 model0_ok
    (i2c0_cov draw0) 1 [0] [[0], [0]]

/-- C1: causality.  If two batched inputs agree at all positions `≤ i` of
row `b`, then `SingleHeadAttention.forward` gives identical outputs at
position `i`; and if two batched token contexts agree at all positions
`≤ i` of row `b`, then `GPT.forward` gives identical logits at every
position `≤ i` — changing a token at a position `j > i` changes neither. -/
theorem causality_attention_and_logits
    {B T D A V Cl Hn A2 : ℕ}
    (psha : SHAParams D A) (p : GPTParams V Cl Hn A2) (training : Bool)
    (keeps : Fin B → ℕ → Fin T → Fin (Hn * A2) → Bool) (hT : T ≤ Cl)
    (x1 x2 : Fin B → Fin T → Fin D → ℝ) (c1 c2 : Fin B → Fin T → Fin V)
    (b : Fin B) (i : Fin T)
    (hx : ∀ t, t ≤ i → x1 b t = x2 b t)
    (hc : ∀ t, t ≤ i → c1 b t = c2 b t) :
    shaForwardBatch psha x1 b i = shaForwardBatch psha x2 b i ∧
    ∀ t, t ≤ i →
      gptForwardBatch p training keeps hT c1 b t =
        gptForwardBatch p training keeps hT c2 b t := by
  constructor
  · exact shaForward_agree psha (x1 b) (x2 b) i hx
  · intro t ht
    exact gptForward_agree p training (keeps b) hT (c1 b) (c2 b) i hc t ht

/-- C1 witness: `xZero` and `xTail` differ at position `1 > 0` yet the
attention output and the logits at position `0` coincide. -/
theorem causality_attention_and_logits_check :
    shaForwardBatch (zeroSHA (1 * 1) 1) xZero 0 0 =
      shaForwardBatch (zeroSHA (1 * 1) 1) xTail 0 0 ∧
    gptForwardBatch (zeroGPT 1 2 1 1) false (fun _ _ _ _ => true)
        (Nat.le_refl 2) cZero 0 0 =
      gptForwardBatch (zeroGPT 1 2 1 1) false (fun _ _ _ _ => true)
        (Nat.le_refl 2) cZero 0 0 := by
  have h := causality_attention_and_logits (zeroSHA (1 * 1) 1)
    (zeroGPT 1 2 1 1) false (fun _ _ _ _ => true) (Nat.le_refl 2)
    xZero xTail cZero cZero 0 0
    (by
      intro t ht
      have ht0 : t = 0 := Fin.le_zero_iff.mp ht
      subst ht0
      funext d
      simp [xZero, xTail])
    (fun _ _ => rfl)
  exact ⟨h.1, h.2 0 (le_refl 0)⟩

/-- C2 counterexample: with `model_dim = 5` and `num_heads = 2` (not
divisible), constructing the model succeeds — there is no ConfigError or
any other construction-time check in the code. -/
theorem init_succeeds_on_indivisible_config :
    exceptOk (GPT_init 10 8 5 1 2) = true := rfl

/-- C2 (amended): construction succeeds for every configuration; when
`model_dim` is not divisible by `num_heads` (and there is at least one
block), the error surfaces only at the first forward pass, as a shape
error where `self.compute = nn.Linear(model_dim, model_dim)` receives the
concatenated head outputs of width `num_heads * (model_dim//num_heads)`. -/
theorem construction_total_forward_rejects_indivisible
    (V Cl Dm N Hn : ℕ) :
    exceptOk (GPT_init V Cl Dm N Hn) = true ∧
    (¬ Hn ∣ Dm → 1 ≤ N →
      ∀ (B T : ℕ) (ctx : Fin B → Fin T → ℤ),
        (∀ b t, 0 ≤ ctx b t ∧ ctx b t < (V : ℤ)) → T ≤ Cl →
        GPT_forward_checked V Cl Dm N Hn B T ctx =
          Except.error TErr.shapeErr) := by
  refine ⟨GPT_init_ok V Cl Dm N Hn, ?_⟩
  intro h hN B T ctx htok hT
  exact gpt_forward_checked_indiv ctx htok hT h hN

/-- C2 witness. -/
theorem construction_total_forward_rejects_indivisible_check :
    exceptOk (GPT_init 10 8 5 1 2) = true ∧
    GPT_forward_checked 10 8 5 1 2 1 1 (fun _ _ => 0) =
      Except.error TErr.shapeErr := by
  have h := construction_total_forward_rejects_indivisible 10 8 5 1 2
  exact ⟨h.1, h.2 (by decide) (by decide) 1 1 (fun _ _ => 0)
    (by intro b t; show (0 : ℤ) ≤ 0 ∧ (0 : ℤ) < 10; omega) (by decide)⟩

/-- C6: in every row `i` of the masked-and-softmaxed attention score
matrix, the weights on the allowed positions `j ≤ i` sum to exactly `1`,
and the weight on every masked position `j > i` is exactly `0`. -/
theorem softmax_rowsum_one_masked_zero {B T D A : ℕ} (p : SHAParams D A)
    (embedded : Fin B → Fin T → Fin D → ℝ) (b : Fin B) (i : Fin T) :
    (∑ j ∈ Finset.univ.filter (fun j => j ≤ i),
        shaWeights p (embedded b) i j) = 1 ∧
    ∀ j, i < j → shaWeights p (embedded b) i j = 0 := by
  constructor
  · exact shaWeights_rowsum p (embedded b) i
  · intro j hj
    exact shaWeights_of_not_le p (embedded b) (not_le.mpr hj)

/-- C6 witness. -/
theorem softmax_rowsum_one_masked_zero_check :
    (∑ j ∈ Finset.univ.filter (fun j => j ≤ (0 : Fin 2)),
        shaWeights (zeroSHA (1 * 1) 1) (xZero 0) 0 j) = 1 ∧
    shaWeights (zeroSHA (1 * 1) 1) (xZero 0) 0 1 = 0 := by
  have h := softmax_rowsum_one_masked_zero (zeroSHA (1 * 1) 1) xZero 0 0
  exact ⟨h.1, h.2 1 (by decide)⟩

/-- C7: `TransformerBlock.forward` computes exactly the pre-normalization
residual composition written in the spec (`x1 = x + MHSA(LN1 x)` then
`x2 = x1 + FF(LN2 x1)`, residuals using the un-normalized values), and
for a valid configuration its output shape equals its input shape. -/
theorem block_prenorm_residual_and_shape :
    (∀ (T Hn A : ℕ) (p : BlockParams Hn A) (training : Bool)
        (keep1 keep2 : Fin T → Fin (Hn * A) → Bool)
        (x : Fin T → Fin (Hn * A) → ℝ),
        blockForward p training keep1 keep2 x =
          blockSpecPreNorm p training keep1 keep2 x) ∧
    (∀ Dm Hn B T : ℕ, Hn ≠ 0 → Hn ∣ Dm →
      TransformerBlock_shape Dm Hn (B, T, Dm) = Except.ok (B, T, Dm)) := by
  constructor
  · intro T Hn A p training k1 k2 x
    rfl
  · intro Dm Hn B T h1 h2
    exact block_shape_ok h1 h2

/-- C7 witness. -/
theorem block_prenorm_residual_and_shape_check :
    blockForward (zeroBlock 1 1) false (fun _ _ => true)
        (fun _ _ => true) (xZero 0) =
      blockSpecPreNorm (zeroBlock 1 1) false (fun _ _ => true)
        (fun _ _ => true) (xZero 0) ∧
    TransformerBlock_shape 4 2 (1, 3, 4) = Except.ok (1, 3, 4) := by
  have h := block_prenorm_residual_and_shape
  exact ⟨h.1 2 1 1 (zeroBlock 1 1) false _ _ (xZero 0),
    h.2 4 2 1 3 (by decide) (by decide)⟩

/-- C8: `GPT.forward` raises whenever the input has `T > context_length`
(positional lookup of `torch.arange(T)` out of range) or contains a token
index outside `[0, vocab_size)` (token embedding lookup out of range);
for valid input on a valid configuration it returns logits of shape
`(B, T, vocab_size)`. -/
theorem gpt_forward_validates_and_shapes
    (V Cl Dm N Hn B T : ℕ) (ctx : Fin B → Fin T → ℤ) :
    (((¬ ∀ b t, 0 ≤ ctx b t ∧ ctx b t < (V : ℤ)) ∨ Cl < T) →
      GPT_forward_checked V Cl Dm N Hn B T ctx =
        Except.error TErr.indexErr) ∧
    ((∀ b t, 0 ≤ ctx b t ∧ ctx b t < (V : ℤ)) → T ≤ Cl → Hn ≠ 0 →
      Hn ∣ Dm →
      GPT_forward_checked V Cl Dm N Hn B T ctx = Except.ok (B, T, V)) := by
  constructor
  · intro h
    by_cases htok : ∀ b t, 0 ≤ ctx b t ∧ ctx b t < (V : ℤ)
    · rcases h with hbad | hlong
      · exact absurd htok hbad
      · exact gpt_forward_checked_long ctx htok hlong
    · exact gpt_forward_checked_badtok ctx htok
  · intro htok hT h1 h2
    exact gpt_forward_checked_ok ctx htok hT h1 h2

/-- C8 witness: `T = 5 > context_length = 2` is rejected; a valid
`(1, 2)` context yields logits of shape `(1, 2, 3)`. -/
theorem gpt_forward_validates_and_shapes_check :
    GPT_forward_checked 3 2 2 1 1 1 5 (fun _ _ => 0) =
      Except.error TErr.indexErr ∧
    GPT_forward_checked 3 2 2 1 1 1 2 (fun _ _ => 0) =
      Except.ok (1, 2, 3) := by
  constructor
  · exact (gpt_forward_validates_and_shapes 3 2 2 1 1 1 5
      (fun _ _ => 0)).1 (Or.inr (by omega))
  · exact (gpt_forward_validates_and_shapes 3 2 2 1 1 1 2
      (fun _ _ => 0)).2
      (by intro b t; show (0 : ℤ) ≤ 0 ∧ (0 : ℤ) < 3; omega)
      (by omega) (by omega) (one_dvd 2)

/-- C9: in inference mode (`training = false`, dropout the identity),
`GPT.forward` does not depend on the dropout mask supply — the only
run-to-run varying input — so two invocations on the same parameters and
context produce identical logits. -/
theorem gpt_forward_inference_deterministic
    {B V Cl Hn A T : ℕ} (p : GPTParams V Cl Hn A) (hT : T ≤ Cl)
    (context : Fin B → Fin T → Fin V)
    (keeps1 keeps2 : Fin B → ℕ → Fin T → Fin (Hn * A) → Bool) :
    gptForwardBatch p false keeps1 hT context =
      gptForwardBatch p false keeps2 hT context := by
  funext b
  unfold gptForwardBatch gptForward
  funext t
  rw [blocksForward_keeps_irrel p.transformer_blocks 0 0 (keeps1 b)
    (keeps2 b)]

/-- C9 witness. -/
theorem gpt_forward_inference_deterministic_check :
    gptForwardBatch (zeroGPT 1 2 1 1) false (fun _ _ _ _ => true)
        (Nat.le_refl 2) cZero =
      gptForwardBatch (zeroGPT 1 2 1 1) false (fun _ _ _ _ => false)
        (Nat.le_refl 2) cZero :=
  gpt_forward_inference_deterministic (zeroGPT 1 2 1 1) (Nat.le_refl 2)
    cZero (fun _ _ _ _ => true) (fun _ _ _ _ => false)
